import Mathlib

/-!
Verification of the shrimp-rpc JSON-RPC 2.0 core (server `handle` in
`src/server.ts`, client `createClient` in `src/client.ts`, error class in
`src/error.ts`) against its specification.

The embedding is a shallow one: JavaScript runtime values are represented by
an inductive `Value` type, thrown values by `Thrown`, asynchronous functions
by `Except Thrown`-valued Lean functions (an `await` that rejects is an
`Except.error`), and the client's mutable pending-call `Map` by an explicit
association list threaded through each operation.
-/

/-- JSON-RPC request/response id: `string | number` (src/jsonrpc.ts, `Id`). -/
inductive RpcId where
  | str (s : String)
  | num (n : Int)
deriving DecidableEq

/-- JavaScript runtime values as far as the RPC core inspects them.
`undef` is JavaScript `undefined` (also the value of an absent field);
numbers are modelled by integers (no claim depends on float arithmetic). -/
inductive Value where
  | null
  | undef
  | bool (b : Bool)
  | num (n : Int)
  | str (s : String)
  | arr (elems : List Value)
  | obj (fields : List (String × Value))

mutual

/-- JavaScript string coercion `'' + v` as used by the server's catch block
for thrown non-Error values: `String(null) = "null"`,
`String(undefined) = "undefined"`, arrays join their elements with commas
(with `null`/`undefined` elements rendered empty), plain objects render as
`"[object Object]"`. -/
def jsToString : Value → String
  | .null => "null"
  | .undef => "undefined"
  | .bool b => if b then "true" else "false"
  | .num n => toString n
  | .str s => s
  | .arr vs => jsToStringList vs
  | .obj _ => "[object Object]"

/-- Array elements joined by commas, per `Array.prototype.toString`. -/
def jsToStringList : List Value → String
  | [] => ""
  | v :: rest =>
    (match v with
      | .null => ""
      | .undef => ""
      | w => jsToString w)
      ++ (if rest.isEmpty then "" else ",") ++ jsToStringList rest

end

/-- The `error` member of a JSON-RPC ErrorMessage: `{code, message, data?}`
(src/jsonrpc.ts, `ErrorMessage`). An absent `data` field is `Value.undef`. -/
structure ErrObj where
  code : Int
  message : String
  data : Value

/-- A thrown JavaScript value, as far as the server's catch block
discriminates it: an `RPCError` instance (carrying `code` and `data`), some
other `Error` instance (carrying only a `message`), or a non-Error value. -/
inductive Thrown where
  | rpcError (message : String) (code : Int) (data : Value)
  | jsError (message : String)
  | value (v : Value)

/-- The `RPCError` constructor (src/error.ts): `code = opts.code ?? 0`,
`data = opts.data`. -/
def RPCError (message : String) (code? : Option Int) (data : Value) : Thrown :=
  .rpcError message (code?.getD 0) data

/-- An incoming message as the core inspects it: every field optional,
since payloads arrive untyped. `id = none` covers an absent, `undefined` or
`null` id — the three are indistinguishable to the code (`id ?? null`,
`id != null`, and `Map` lookups against string/number keys treat them
alike). `params` is `Value.undef` when the field is absent. -/
structure RawMessage where
  jsonrpc : Option Value
  method? : Option String
  id : Option RpcId
  params : Value
  result? : Option Value
  error? : Option ErrObj

/-- The request message built by the client (`{jsonrpc, method, params, id}`
with `id` omitted for notifications). -/
def mkRequest (method : String) (params : Value) (id : Option RpcId) : RawMessage :=
  ⟨some (.str "2.0"), some method, id, params, none, none⟩

/-- A structured payload: one message or a batch (src/jsonrpc.ts, `Payload`). -/
inductive StructPayload where
  | single (m : RawMessage)
  | batch (ms : List RawMessage)

/-- A handler function: receives the message's `params` value and either
returns a value or throws/rejects (an async handler's settled outcome). -/
def HandlerFn : Type := Value → Except Thrown Value

/-- A handler map: a plain JavaScript object whose own properties map method
names to handler functions. -/
structure HandlerMap where
  own : List (String × HandlerFn)

/-- The function-valued properties a plain object inherits from
`Object.prototype`, as seen by `handlerObj[message.method]`. The receiver of
each is the handler map itself. `valueOf` returns the receiver; its
function-valued fields have no `Value` representation, so it is rendered as
an opaque object. The mutating legacy accessors and the accessor property
`__proto__` are not modelled. -/
def protoFn (hm : HandlerMap) : String → Option HandlerFn
  | "constructor" => some fun v => .ok (match v with
      | .null => .obj []
      | .undef => .obj []
      | w => w)
  | "hasOwnProperty" => some fun v =>
      .ok (.bool ((hm.own.map Prod.fst).contains (jsToString v)))
  | "isPrototypeOf" => some fun v => .ok (.bool (match v with
      | .obj _ => true
      | .arr _ => true
      | _ => false))
  | "propertyIsEnumerable" => some fun v =>
      .ok (.bool ((hm.own.map Prod.fst).contains (jsToString v)))
  | "toLocaleString" => some fun _ => .ok (.str "[object Object]")
  | "toString" => some fun _ => .ok (.str "[object Object]")
  | "valueOf" => some fun _ => .ok (.obj [])
  | _ => none

/-- JavaScript property access `handlerObj[name]` on a plain object: own
properties first, then `Object.prototype`. -/
def getProp (hm : HandlerMap) (name : String) : Option HandlerFn :=
  match hm.own.lookup name with
  | some f => some f
  | none => protoFn hm name

/-- The server's second argument: a handler map, or a factory invoked with
the context (which may itself throw). -/
inductive HandlerSpec where
  | direct (hm : HandlerMap)
  | factory (f : Value → Except Thrown HandlerMap)

/-- `typeof handler === 'function' ? handler(context!) : handler`. -/
def resolveHandler : HandlerSpec → Value → Except Thrown HandlerMap
  | .direct hm, _ => .ok hm
  | .factory f, ctx => f ctx

/-- A message the server produces: a ResultMessage `{jsonrpc, id, result}`
or an ErrorMessage `{jsonrpc, id, error}` (its `id` may be `null`). -/
inductive RespMessage where
  | result (id : RpcId) (result : Value)
  | error (id : Option RpcId) (err : ErrObj)

/-- The id a response carries. -/
def respId : RespMessage → Option RpcId
  | .result i _ => some i
  | .error oi _ => oi

/-- The server's reply payload: one message or a batch. -/
inductive OutPayload where
  | single (m : RespMessage)
  | batch (ms : List RespMessage)

/-- The shared `invalidRequest` constant of `handle`. -/
def invalidRequest : RespMessage :=
  .error none ⟨-32600, "Invalid Request", .undef⟩

/-- Mapping of a caught thrown value to the reply's error object:
`message` from `error.message` (string coercion for non-Error values),
`code`/`data` from the thrown value when it is an `RPCError`, else `0` and
`undefined`. -/
def thrownToErrObj : Thrown → ErrObj
  | .rpcError m c d => ⟨c, m, d⟩
  | .jsError m => ⟨0, m, .undef⟩
  | .value v => ⟨0, jsToString v, .undef⟩

/-- The known-method/unknown-method part of the server's `onMessage`, after
the handler map has been resolved: look up `method`; if absent reply
Method-not-found with `id: message.id ?? null`; otherwise invoke the
handler with the raw `params`, and reply only when `message.id != null`. -/
def dispatchMethod (hm : HandlerMap) (method : String) (msg : RawMessage) :
    Option RespMessage :=
  match getProp hm method with
  | none => some (.error msg.id ⟨-32601, "Method not found", .undef⟩)
  | some fn =>
    match fn msg.params, msg.id with
    | .ok result, some i => some (.result i result)
    | .ok _, none => none
    | .error e, some i => some (.error (some i) (thrownToErrObj e))
    | .error _, none => none

/-- The strict comparison `message?.jsonrpc === '2.0'`: true exactly when
the field is present and is the string `"2.0"`. -/
def versionOk : Option Value → Bool
  | some (.str s) => s == "2.0"
  | _ => false

/-- The server's per-message procedure `onMessage` (src/server.ts), for a
handler spec that resolves without throwing to `hm`: reject a wrong or
missing version tag with Invalid Request; ignore messages without `method`;
otherwise dispatch. -/
def onMessage (hm : HandlerMap) (msg : RawMessage) : Option RespMessage :=
  if !versionOk msg.jsonrpc then some invalidRequest
  else
    match msg.method? with
    | none => none
    | some method => dispatchMethod hm method msg

/-- The server's per-message procedure with its failure channel: resolving
the handler map (the factory call) happens outside the try/catch, so a
throwing factory rejects the `onMessage` promise. -/
def onMessageE (handler : HandlerSpec) (ctx : Value) (msg : RawMessage) :
    Except Thrown (Option RespMessage) :=
  if !versionOk msg.jsonrpc then .ok (some invalidRequest)
  else
    match msg.method? with
    | none => .ok none
    | some method =>
      match resolveHandler handler ctx with
      | .error e => .error e
      | .ok hm => .ok (dispatchMethod hm method msg)

/-- `Promise.all` over the per-element `onMessage` promises: the combined
promise rejects if any element's promise rejects, else yields all results. -/
def promiseAll (f : RawMessage → Except Thrown (Option RespMessage)) :
    List RawMessage → Except Thrown (List (Option RespMessage))
  | [] => .ok []
  | m :: rest =>
    match f m with
    | .error e => .error e
    | .ok r =>
      match promiseAll f rest with
      | .error e => .error e
      | .ok rs => .ok (r :: rs)

/-- The shape dispatch of `handle` on an already-structured payload: an
empty batch is Invalid Request; a non-empty batch maps `onMessage` over the
elements, drops absent replies, and returns the remaining batch unless it
is empty; a single message is processed directly. -/
def handlePayload (handler : HandlerSpec) (ctx : Value) :
    StructPayload → Except Thrown (Option OutPayload)
  | .single m =>
    match onMessageE handler ctx m with
    | .error e => .error e
    | .ok r => .ok (r.map OutPayload.single)
  | .batch ms =>
    if ms.isEmpty then .ok (some (.single invalidRequest))
    else
      match promiseAll (onMessageE handler ctx) ms with
      | .error e => .error e
      | .ok results =>
        let responseBatch := results.filterMap id
        if responseBatch.length > 0 then .ok (some (.batch responseBatch))
        else .ok none

/-- `handle`'s first argument: either text (represented by the outcome of
`JSON.parse` on it — `none` models a parse that throws) or a structured
payload. -/
inductive Input where
  | text (parsed : Option StructPayload)
  | payload (p : StructPayload)

/-- The server entry point `handle` (src/server.ts): text that fails to
parse yields a Parse-error reply with `id: null`; otherwise the payload is
dispatched by shape. -/
def handle (input : Input) (handler : HandlerSpec) (ctx : Value) :
    Except Thrown (Option OutPayload) :=
  match input with
  | .text none => .ok (some (.single (.error none ⟨-32700, "Parse error", .undef⟩)))
  | .text (some p) => handlePayload handler ctx p
  | .payload p => handlePayload handler ctx p

/-- The client's Pending Call Table (src/client.ts): a `Map` from id to a
`{resolve, reject}` pair. The pair is modelled by an opaque token naming
the promise it settles; `Map` keys are unique, so an association list with
the most recent binding first is a faithful representation. -/
abbrev PendingTable : Type := List (RpcId × Nat)

/-- `pending.get(id)`. -/
def lookupPending (id : RpcId) : PendingTable → Option Nat
  | [] => none
  | (k, e) :: rest => if k = id then some e else lookupPending id rest

/-- `pending.delete(id)` (a `Map` holds each key at most once, so removing
every binding of the key is equivalent). -/
def erasePending (id : RpcId) : PendingTable → PendingTable
  | [] => []
  | (k, e) :: rest =>
    if k = id then erasePending id rest else (k, e) :: erasePending id rest

/-- `pending.set(id, entry)`. -/
def insertPending (id : RpcId) (entry : Nat) (st : PendingTable) : PendingTable :=
  (id, entry) :: st

/-- A settling of a pending promise: `request.resolve(result)`, or
`request.reject(new RPCError(error.message, error))` — the rejection
carries the reply's error message, code and data. -/
inductive SettleEvent where
  | resolve (entry : Nat) (result : Value)
  | reject (entry : Nat) (message : String) (code : Int) (data : Value)

namespace Client

/-- The client's `onMessage` (src/client.ts): a message with a `result`
field settles a matching pending call with that result; otherwise a message
with an `error` field and a non-null id rejects a matching pending call;
everything else — including unmatched or null ids — is ignored. The version
tag is never inspected. Returns the updated table and the settling
performed, if any. -/
def onMessage (msg : RawMessage) (pending : PendingTable) :
    PendingTable × Option SettleEvent :=
  match msg.result? with
  | some result =>
    match msg.id with
    | some i =>
      match lookupPending i pending with
      | some entry => (erasePending i pending, some (.resolve entry result))
      | none => (pending, none)
    | none => (pending, none)
  | none =>
    match msg.error? with
    | some eo =>
      match msg.id with
      | some i =>
        match lookupPending i pending with
        | some entry =>
          (erasePending i pending, some (.reject entry eo.message eo.code eo.data))
        | none => (pending, none)
      | none => (pending, none)
    | none => (pending, none)

/-- The client's `receive` callback: a batch is handled message by message
in order, a single message directly. Returns the final table and the
settlings performed, in order. -/
def receive (payload : StructPayload) (pending : PendingTable) :
    PendingTable × List SettleEvent :=
  match payload with
  | .single m =>
    let r := onMessage m pending
    (r.1, r.2.toList)
  | .batch ms =>
    ms.foldl
      (fun acc m =>
        let r := onMessage m acc.1
        (r.1, acc.2 ++ r.2.toList))
      (pending, [])

/-- The client's `callImpl`: generate a fresh id (`id`, modelling
`crypto.randomUUID()`), register the `{resolve, reject}` pair (`entry`) in
the Pending Call Table inside the promise executor, then `await send` on
the request message. If the send throws or rejects, `callImpl`'s promise
rejects with that error; nothing removes the registered entry. On success
the call promise — identified here by its id — is returned. -/
def callImpl (pending : PendingTable) (id : RpcId) (entry : Nat)
    (method : String) (params : Value)
    (send : RawMessage → Except Thrown Unit) :
    PendingTable × Except Thrown RpcId :=
  let pending1 := insertPending id entry pending
  match send (mkRequest method params (some id)) with
  | .error e => (pending1, .error e)
  | .ok _ => (pending1, .ok id)

/-- The observable state of one batch accumulator from `createBatch`,
together with the pending table and the log of payloads handed to the
transport's `send`. -/
structure BatchState where
  pending : PendingTable
  buffer : List RawMessage
  sent : List StructPayload

/-- `batch.call`: `callImpl` with `addToBatch` as the sender — the request
is pushed onto the buffer and the pending entry is registered immediately;
the transport's `send` is not invoked. -/
def batchCall (st : BatchState) (id : RpcId) (entry : Nat)
    (method : String) (params : Value) : BatchState :=
  ⟨insertPending id entry st.pending,
    st.buffer ++ [mkRequest method params (some id)], st.sent⟩

/-- `batch.notify`: the id-less request is pushed onto the buffer; no
pending entry, no transport `send`. -/
def batchNotify (st : BatchState) (method : String) (params : Value) :
    BatchState :=
  ⟨st.pending, st.buffer ++ [mkRequest method params none], st.sent⟩

/-- `batch.flush`: if the buffer is non-empty, snapshot it, clear it, and
hand the snapshot to the transport's `send` as one batch payload; an empty
buffer means no send at all. -/
def flush (st : BatchState) : BatchState :=
  if st.buffer.isEmpty then st
  else ⟨st.pending, [], st.sent ++ [StructPayload.batch st.buffer]⟩

end Client

/-- The reply the server produces for a call with id `i` whose handler
invocation had the given outcome. -/
def respOf (i : RpcId) : Except Thrown Value → RespMessage
  | .ok v => .result i v
  | .error e => .error (some i) (thrownToErrObj e)

/-- The handler argument resolves without throwing: a direct handler map
always does; a factory does when it returns normally on every context. -/
def resolvesOk (handler : HandlerSpec) : Prop :=
  ∀ ctx, ∃ hm, resolveHandler handler ctx = .ok hm

/-- Whether the promise `handle` returns settled successfully (it did not
reject). -/
def isFulfilled : Except Thrown (Option OutPayload) → Bool
  | .ok _ => true
  | .error _ => false

theorem respId_respOf (i : RpcId) (r : Except Thrown Value) :
    respId (respOf i r) = some i := by
  cases r <;> rfl

theorem onMessageE_direct (hm : HandlerMap) (ctx : Value) (m : RawMessage) :
    onMessageE (.direct hm) ctx m = .ok (onMessage hm m) := by
  unfold onMessageE onMessage
  by_cases hb : (!versionOk m.jsonrpc) = true
  · rw [if_pos hb, if_pos hb]
  · rw [if_neg hb, if_neg hb]
    cases m.method? <;> rfl

theorem lookupPending_erasePending_self (i : RpcId) (st : PendingTable) :
    lookupPending i (erasePending i st) = none := by
  induction st with
  | nil => rfl
  | cons p rest ih =>
    obtain ⟨k, e⟩ := p
    by_cases h : k = i
    · simp only [erasePending, if_pos h]
      exact ih
    · simp only [erasePending, if_neg h, lookupPending, ih]

theorem promiseAll_direct (hm : HandlerMap) (ctx : Value) (ms : List RawMessage) :
    promiseAll (onMessageE (.direct hm) ctx) ms = .ok (ms.map (onMessage hm)) := by
  induction ms with
  | nil => rfl
  | cons m rest ih => simp [promiseAll, onMessageE_direct, ih]

theorem onMessageE_isOk (handler : HandlerSpec) (ctx : Value) (m : RawMessage)
    (h : resolvesOk handler) : ∃ r, onMessageE handler ctx m = .ok r := by
  unfold onMessageE
  by_cases hb : (!versionOk m.jsonrpc) = true
  · exact ⟨_, if_pos hb⟩
  · rw [if_neg hb]
    cases m.method? with
    | none => exact ⟨none, rfl⟩
    | some mth =>
      obtain ⟨hmv, hres⟩ := h ctx
      rw [hres]
      exact ⟨_, rfl⟩

theorem promiseAll_isOk (f : RawMessage → Except Thrown (Option RespMessage))
    (ms : List RawMessage) (h : ∀ m, ∃ r, f m = .ok r) :
    ∃ rs, promiseAll f ms = .ok rs := by
  induction ms with
  | nil => exact ⟨[], rfl⟩
  | cons m rest ih =>
    obtain ⟨r, hr⟩ := h m
    obtain ⟨rs, hrs⟩ := ih
    exact ⟨r :: rs, by simp [promiseAll, hr, hrs]⟩

theorem onMessage_valid (hm : HandlerMap) (m : RawMessage) (mth : String)
    (fn : HandlerFn) (hv : versionOk m.jsonrpc = true)
    (hmth : m.method? = some mth) (hfn : getProp hm mth = some fn) :
    onMessage hm m = m.id.map (fun i => respOf i (fn m.params)) := by
  have h1 : (!versionOk m.jsonrpc) = false := by rw [hv]; rfl
  have h2 : onMessage hm m = dispatchMethod hm mth m := by
    unfold onMessage
    rw [h1, hmth]
    rfl
  rw [h2]
  unfold dispatchMethod
  rw [hfn]
  cases hres : fn m.params <;> cases hid : m.id <;>
    simp [hres, hid, respOf]

theorem handlePayload_batch_ok (handler : HandlerSpec) (ctx : Value)
    (ms : List RawMessage) (rs : List (Option RespMessage))
    (hms : ms.isEmpty = false)
    (hrs : promiseAll (onMessageE handler ctx) ms = .ok rs) :
    handlePayload handler ctx (.batch ms)
      = if (rs.filterMap id).length > 0
        then .ok (some (.batch (rs.filterMap id)))
        else .ok none := by
  simp only [handlePayload]
  rw [hms, hrs]
  rfl

theorem handlePayload_isOk (handler : HandlerSpec) (ctx : Value)
    (p : StructPayload) (h : resolvesOk handler) :
    ∃ r, handlePayload handler ctx p = .ok r := by
  cases p with
  | single m =>
    obtain ⟨r, hr⟩ := onMessageE_isOk handler ctx m h
    simp only [handlePayload]
    rw [hr]
    exact ⟨_, rfl⟩
  | batch ms =>
    by_cases hms : ms.isEmpty = true
    · simp only [handlePayload]
      rw [if_pos hms]
      exact ⟨_, rfl⟩
    · obtain ⟨rs, hrs⟩ := promiseAll_isOk _ ms (fun m => onMessageE_isOk handler ctx m h)
      rw [handlePayload_batch_ok handler ctx ms rs (by simpa using hms) hrs]
      by_cases hlen : (rs.filterMap id).length > 0
      · rw [if_pos hlen]; exact ⟨_, rfl⟩
      · rw [if_neg hlen]; exact ⟨_, rfl⟩

theorem filterMap_id_map (f : RawMessage → Option RespMessage)
    (ms : List RawMessage) : (ms.map f).filterMap id = ms.filterMap f := by
  induction ms with
  | nil => rfl
  | cons m rest ih => cases h : f m <;> simp [h, ih]

theorem filterMap_onMessage_ids (hm : HandlerMap) (ms : List RawMessage)
    (hvalid : ∀ m ∈ ms, versionOk m.jsonrpc = true ∧
      ∃ mth fn, m.method? = some mth ∧ getProp hm mth = some fn) :
    (ms.filterMap (onMessage hm)).map respId
      = (ms.filter (fun m => m.id.isSome)).map (fun m => m.id) := by
  induction ms with
  | nil => rfl
  | cons m rest ih =>
    obtain ⟨hv, mth, fn, hmth, hfn⟩ := hvalid m (by simp)
    have hrest := ih (fun m' hmem => hvalid m' (by simp [hmem]))
    have hone := onMessage_valid hm m mth fn hv hmth hfn
    cases hid : m.id with
    | none =>
      rw [hid] at hone
      simp only [List.filterMap_cons, List.filter_cons, hone, hid]
      simpa using hrest
    | some i0 =>
      rw [hid] at hone
      simp only [List.filterMap_cons, List.filter_cons, hone, hid]
      simp [respId_respOf, hid, hrest]

/-- C1: for a RequestMessage naming a method absent from the handler map,
`handle` with an id present returns the Method-not-found ErrorMessage
(code -32601) with that id — but for a notification (no id) the code does
NOT return nothing: the `if (!fn)` branch replies unconditionally with
`id: message.id ?? null`, so the notification gets a -32601 ErrorMessage
with id `null`, contradicting the claim (and the JSON-RPC 2.0 rule that a
server must not reply to a notification). This theorem evaluates the code
at both inputs. -/
theorem handle_unknown_method_notification_replies :
    (∀ i : RpcId,
      handle (.payload (.single (mkRequest "missing" .undef (some i))))
          (.direct ⟨[]⟩) .undef
        = .ok (some (.single (.error (some i)
            ⟨-32601, "Method not found", .undef⟩))))
    ∧ handle (.payload (.single (mkRequest "missing" .undef none)))
          (.direct ⟨[]⟩) .undef
        = .ok (some (.single (.error none
            ⟨-32601, "Method not found", .undef⟩))) :=
  ⟨fun _ => rfl, rfl⟩

/-- C2 (amended): whenever the handler argument resolves without throwing —
in particular for every direct handler map — the promise returned by
`handle` never rejects, for every input and context, even when handlers
throw. (The unamended claim fails when a handler FACTORY throws: the
factory call sits outside the try/catch.) -/
theorem handle_no_reject_of_resolvesOk (input : Input) (handler : HandlerSpec)
    (ctx : Value) (h : resolvesOk handler) :
    isFulfilled (handle input handler ctx) = true := by
  have hp : ∀ p : StructPayload, isFulfilled (handlePayload handler ctx p) = true := by
    intro p
    obtain ⟨r, hr⟩ := handlePayload_isOk handler ctx p h
    rw [hr]
    rfl
  cases input with
  | text p =>
    cases p with
    | none => rfl
    | some sp => exact hp sp
  | payload p => exact hp p

theorem handle_no_reject_of_resolvesOk_witness :
    isFulfilled (handle (.payload (.single (mkRequest "boom" .undef (some (.num 1)))))
        (.direct ⟨[("boom", fun _ => .error (.jsError "handler threw"))]⟩) .undef)
      = true :=
  handle_no_reject_of_resolvesOk _ _ _ (fun _ => ⟨_, rfl⟩)

/-- C2 counterexample: with a handler factory that throws, `handle` rejects
with the thrown error instead of settling — so the claim as stated (never
rejects, including when the handler factory throws) is false. -/
theorem handle_rejects_on_throwing_factory :
    handle (.payload (.single (mkRequest "m" .undef (some (.num 1)))))
        (.factory (fun _ => .error (.jsError "factory threw"))) .undef
      = .error (.jsError "factory threw") := rfl

/-- C4: for a valid single RequestMessage (version tag `"2.0"`) whose method
is present in the handler map and whose id is non-null, `handle` returns a
ResultMessage with the same id and the handler's return value, the handler
having been applied to the message's `params` as-is; with the id absent or
null, `handle` returns nothing regardless of the handler's result. -/
theorem handle_known_method_success (hm : HandlerMap) (method : String)
    (fn : HandlerFn) (params : Value) (i : RpcId) (v : Value) (ctx : Value)
    (hfn : getProp hm method = some fn) (hres : fn params = .ok v) :
    handle (.payload (.single (mkRequest method params (some i))))
        (.direct hm) ctx
      = .ok (some (.single (.result i v)))
    ∧ handle (.payload (.single (mkRequest method params none)))
        (.direct hm) ctx
      = .ok none := by
  have h1 := onMessage_valid hm (mkRequest method params (some i)) method fn
    rfl rfl hfn
  have h2 := onMessage_valid hm (mkRequest method params none) method fn
    rfl rfl hfn
  constructor
  · simp only [handle, handlePayload]
    rw [onMessageE_direct, h1]
    simp [mkRequest, hres, respOf]
  · simp only [handle, handlePayload]
    rw [onMessageE_direct, h2]
    simp [mkRequest]

theorem handle_known_method_success_witness :
    handle (.payload (.single (mkRequest "echo" (.num 3) (some (.str "a")))))
        (.direct ⟨[("echo", fun v => .ok v)]⟩) .undef
      = .ok (some (.single (.result (.str "a") (.num 3))))
    ∧ handle (.payload (.single (mkRequest "echo" (.num 3) none)))
        (.direct ⟨[("echo", fun v => .ok v)]⟩) .undef
      = .ok none :=
  handle_known_method_success ⟨[("echo", fun v => .ok v)]⟩ "echo"
    (fun v => .ok v) (.num 3) (.str "a") (.num 3) .undef rfl rfl

/-- C5: for a request whose handler throws or rejects, with a non-null id
`handle` returns an ErrorMessage with that id whose error object is the
thrown value mapped by `thrownToErrObj` — code `0` and data `undefined`
unless the thrown value is an `RPCError` (whose code and data are then
used), message text the error's message, or its string coercion for
non-Error values; with the id absent or null the failure is swallowed and
`handle` returns nothing. -/
theorem handle_handler_throw_mapping (hm : HandlerMap) (method : String)
    (fn : HandlerFn) (params : Value) (i : RpcId) (e : Thrown) (ctx : Value)
    (hfn : getProp hm method = some fn) (hres : fn params = .error e) :
    handle (.payload (.single (mkRequest method params (some i))))
        (.direct hm) ctx
      = .ok (some (.single (.error (some i) (thrownToErrObj e))))
    ∧ handle (.payload (.single (mkRequest method params none)))
        (.direct hm) ctx
      = .ok none
    ∧ (∀ m c d, thrownToErrObj (.rpcError m c d) = ⟨c, m, d⟩)
    ∧ (∀ m, thrownToErrObj (.jsError m) = ⟨0, m, .undef⟩)
    ∧ (∀ v, thrownToErrObj (.value v) = ⟨0, jsToString v, .undef⟩)
    ∧ (∀ m c? d, RPCError m c? d = .rpcError m (c?.getD 0) d) := by
  have h1 := onMessage_valid hm (mkRequest method params (some i)) method fn
    rfl rfl hfn
  have h2 := onMessage_valid hm (mkRequest method params none) method fn
    rfl rfl hfn
  refine ⟨?_, ?_, fun _ _ _ => rfl, fun _ => rfl, fun _ => rfl, fun _ _ _ => rfl⟩
  · simp only [handle, handlePayload]
    rw [onMessageE_direct, h1]
    simp [mkRequest, hres, respOf]
  · simp only [handle, handlePayload]
    rw [onMessageE_direct, h2]
    simp [mkRequest]

theorem handle_handler_throw_mapping_witness :
    handle (.payload (.single (mkRequest "div" .undef (some (.num 5)))))
        (.direct ⟨[("div", fun _ =>
          .error (.rpcError "Division by zero" 666 (.str "extra")))]⟩) .undef
      = .ok (some (.single (.error (some (.num 5))
          ⟨666, "Division by zero", .str "extra"⟩))) :=
  (handle_handler_throw_mapping
    ⟨[("div", fun _ => .error (.rpcError "Division by zero" 666 (.str "extra")))]⟩
    "div" (fun _ => .error (.rpcError "Division by zero" 666 (.str "extra")))
    .undef (.num 5) (.rpcError "Division by zero" 666 (.str "extra")) .undef
    rfl rfl).1

/-- C3 (amended): the Dispatcher rejects every message lacking the
protocol-version literal `"2.0"` (or carrying any other value for it) with
an Invalid-Request reply — but the Call Tracker's receive path never
inspects the version tag at all: its behaviour on a message is identical
for every value of the `jsonrpc` field, so such messages are NOT prevented
from settling pending calls. -/
theorem version_check_dispatcher_only :
    (∀ (handler : HandlerSpec) (ctx : Value) (m : RawMessage),
        versionOk m.jsonrpc = false →
        handle (.payload (.single m)) handler ctx
          = .ok (some (.single invalidRequest)))
    ∧ (∀ (v v' : Option Value) (mth : Option String) (i : Option RpcId)
        (p : Value) (r : Option Value) (e : Option ErrObj) (st : PendingTable),
        Client.onMessage ⟨v, mth, i, p, r, e⟩ st
          = Client.onMessage ⟨v', mth, i, p, r, e⟩ st) := by
  constructor
  · intro handler ctx m hv
    have h1 : (!versionOk m.jsonrpc) = true := by rw [hv]; rfl
    simp only [handle, handlePayload, onMessageE]
    rw [if_pos h1]
    rfl
  · intro v v' mth i p r e st
    rfl

theorem version_check_dispatcher_only_witness :
    handle (.payload (.single ⟨some (.str "1.0"), some "m", some (.num 1),
        .undef, none, none⟩)) (.direct ⟨[]⟩) .undef
      = .ok (some (.single invalidRequest)) :=
  version_check_dispatcher_only.1 _ _ _ rfl

/-- C3 counterexample: a reply message with NO `jsonrpc` field at all still
settles a matching pending call in the Call Tracker — contradicting the
claim that such messages must not settle any pending call. -/
theorem client_settles_without_version_tag :
    Client.onMessage ⟨none, none, some (.str "a"), .undef, some (.num 7), none⟩
        [((.str "a"), 0)]
      = ([], some (.resolve 0 (.num 7))) := rfl

theorem filter_isSome_eq_nil (ms : List RawMessage)
    (hids : ∀ m ∈ ms, m.id = none) :
    ms.filter (fun m => m.id.isSome) = [] := by
  induction ms with
  | nil => rfl
  | cons a l ih =>
    have ha := hids a (by simp)
    simp [List.filter_cons, ha, ih (fun m hm => hids m (by simp [hm]))]

theorem map_respId_eq_nil (rb : List RespMessage)
    (h : rb.map respId = []) : rb = [] := by
  cases rb with
  | nil => rfl
  | cons a l => exact absurd h (by simp)

/-- C6 (amended): for every non-empty batch of version-valid requests whose
methods are all present in the handler map, the reply contains exactly one
response per element with a non-null id, in request order, each carrying its
own request's id; elements without an id (notifications) contribute no
response; and if every element is a notification, `handle` returns
`undefined`, not an empty array. (The unamended claim, quantified over ALL
non-empty batches, is false: an element with an invalid version tag yields
an Invalid-Request response whose id is `null`, not the element's own id —
see the counterexample.) -/
theorem handle_batch_valid_correspondence (hm : HandlerMap)
    (ms : List RawMessage) (ctx : Value) (hne : ms ≠ [])
    (hvalid : ∀ m ∈ ms, versionOk m.jsonrpc = true ∧
      ∃ mth fn, m.method? = some mth ∧ getProp hm mth = some fn) :
    (handle (.payload (.batch ms)) (.direct hm) ctx
        = if (ms.filterMap (onMessage hm)).length > 0
          then .ok (some (.batch (ms.filterMap (onMessage hm))))
          else .ok none)
    ∧ (ms.filterMap (onMessage hm)).map respId
        = (ms.filter (fun m => m.id.isSome)).map (fun m => m.id)
    ∧ ((∀ m ∈ ms, m.id = none) →
        handle (.payload (.batch ms)) (.direct hm) ctx = .ok none) := by
  have hne' : ms.isEmpty = false := by
    cases ms with
    | nil => exact absurd rfl hne
    | cons a l => rfl
  have h1 : handle (.payload (.batch ms)) (.direct hm) ctx
      = if (ms.filterMap (onMessage hm)).length > 0
        then .ok (some (.batch (ms.filterMap (onMessage hm))))
        else .ok none := by
    have hrs := promiseAll_direct hm ctx ms
    simp only [handle]
    rw [handlePayload_batch_ok (.direct hm) ctx ms _ hne' hrs, filterMap_id_map]
  have h2 := filterMap_onMessage_ids hm ms hvalid
  refine ⟨h1, h2, ?_⟩
  intro hids
  have hnil : ms.filterMap (onMessage hm) = [] := by
    apply map_respId_eq_nil
    rw [h2, filter_isSome_eq_nil ms hids]
    rfl
  rw [h1, hnil]
  rfl

theorem handle_batch_valid_correspondence_witness :
    handle (.payload (.batch [mkRequest "echo2" (.num 1) (some (.num 1)),
        mkRequest "echo2" (.num 2) none]))
        (.direct ⟨[("echo2", fun v => .ok v)]⟩) .undef
      = .ok (some (.batch [.result (.num 1) (.num 1)])) :=
  (handle_batch_valid_correspondence ⟨[("echo2", fun v => .ok v)]⟩
    [mkRequest "echo2" (.num 1) (some (.num 1)), mkRequest "echo2" (.num 2) none]
    .undef (by simp)
    (by
      intro m hmem
      rcases List.mem_cons.mp hmem with h | h
      · subst h
        exact ⟨rfl, "echo2", fun v => .ok v, rfl, rfl⟩
      · rcases List.mem_cons.mp h with h' | h'
        · subst h'
          exact ⟨rfl, "echo2", fun v => .ok v, rfl, rfl⟩
        · cases h')).1

/-- C6 counterexample: a non-empty batch whose single element is a
non-notification (it carries id 7) but has an invalid version tag: the
reply's sole response is the Invalid-Request error carrying id `null`, not
the element's own id 7 — so the claim's universally quantified
"each carrying its own request's id" fails on the code. -/
theorem handle_batch_invalid_element_id_null :
    handle (.payload (.batch [⟨some (.str "1.0"), some "m", some (.num 7),
        .undef, none, none⟩])) (.direct ⟨[]⟩) .undef
      = .ok (some (.batch [invalidRequest]))
    ∧ respId invalidRequest = none
    ∧ (⟨some (.str "1.0"), some "m", some (.num 7), .undef, none, none⟩ :
        RawMessage).id = some (.num 7) :=
  ⟨rfl, rfl, rfl⟩

/-- C7: each pending call is settled at most once. Processing any message a
second time on the table left by its first processing performs no settling
and leaves the table unchanged; when a result (resp. error) message's id
matches a pending entry, the table returned has the entry removed and the
promise is resolved (resp. rejected) — and the removed id no longer looks
up; messages with a null id or an unmatched id leave the table unchanged
and settle nothing. -/
theorem client_onMessage_settle_at_most_once (m : RawMessage)
    (st : PendingTable) :
    (Client.onMessage m (Client.onMessage m st).1
        = ((Client.onMessage m st).1, none))
    ∧ (∀ i entry r, m.id = some i → m.result? = some r →
        lookupPending i st = some entry →
        Client.onMessage m st = (erasePending i st, some (.resolve entry r))
          ∧ lookupPending i (erasePending i st) = none)
    ∧ (∀ i entry eo, m.id = some i → m.result? = none → m.error? = some eo →
        lookupPending i st = some entry →
        Client.onMessage m st
            = (erasePending i st,
                some (.reject entry eo.message eo.code eo.data))
          ∧ lookupPending i (erasePending i st) = none)
    ∧ (m.id = none → Client.onMessage m st = (st, none))
    ∧ (∀ i, m.id = some i → lookupPending i st = none →
        Client.onMessage m st = (st, none)) := by
  obtain ⟨j, mth, i, p, r, e⟩ := m
  refine ⟨?_, ?_, ?_, ?_, ?_⟩
  · cases r with
    | some res =>
      cases i with
      | none => rfl
      | some i0 =>
        cases hl : lookupPending i0 st with
        | none => simp [Client.onMessage, hl]
        | some ent =>
          simp [Client.onMessage, hl, lookupPending_erasePending_self]
    | none =>
      cases e with
      | some eo =>
        cases i with
        | none => rfl
        | some i0 =>
          cases hl : lookupPending i0 st with
          | none => simp [Client.onMessage, hl]
          | some ent =>
            simp [Client.onMessage, hl, lookupPending_erasePending_self]
      | none => rfl
  · intro i0 entry res hi hr hl
    cases hi
    cases hr
    exact ⟨by simp [Client.onMessage, hl], lookupPending_erasePending_self i0 st⟩
  · intro i0 entry eo hi hr he hl
    cases hi
    cases hr
    cases he
    exact ⟨by simp [Client.onMessage, hl], lookupPending_erasePending_self i0 st⟩
  · intro hi
    cases hi
    cases r with
    | some res => rfl
    | none => cases e <;> rfl
  · intro i0 hi hl
    cases hi
    cases r with
    | some res => simp [Client.onMessage, hl]
    | none =>
      cases e with
      | some eo => simp [Client.onMessage, hl]
      | none => rfl

theorem client_onMessage_settle_at_most_once_witness :
    Client.onMessage ⟨some (.str "2.0"), none, some (.str "a"), .undef,
        some (.num 3), none⟩ [((.str "a"), 5)]
      = (erasePending (.str "a") [((.str "a"), 5)], some (.resolve 5 (.num 3)))
    ∧ lookupPending (.str "a") (erasePending (.str "a") [((.str "a"), 5)])
      = none :=
  (client_onMessage_settle_at_most_once _ _).2.1 (.str "a") 5 (.num 3)
    rfl rfl rfl

/-- C8: against a batch accumulator, `call` and `notify` touch only the
buffer (and, for `call`, the Pending Call Table) — the transport send log is
unchanged; a non-empty `flush` clears the buffer and appends exactly one
payload, the full buffered sequence in insertion order, to the send log; a
`flush` on an empty buffer changes nothing (no send). -/
theorem batch_buffering_flush (st : Client.BatchState) (id : RpcId)
    (entry : Nat) (method : String) (params : Value) :
    (Client.batchCall st id entry method params).sent = st.sent
    ∧ (Client.batchCall st id entry method params).buffer
        = st.buffer ++ [mkRequest method params (some id)]
    ∧ (Client.batchNotify st method params).sent = st.sent
    ∧ (Client.batchNotify st method params).buffer
        = st.buffer ++ [mkRequest method params none]
    ∧ (st.buffer = [] → Client.flush st = st)
    ∧ (st.buffer ≠ [] →
        Client.flush st
          = ⟨st.pending, [], st.sent ++ [StructPayload.batch st.buffer]⟩) := by
  refine ⟨rfl, rfl, rfl, rfl, ?_, ?_⟩
  · intro h
    simp [Client.flush, h]
  · intro h
    have h1 : st.buffer.isEmpty = false := by
      cases hb : st.buffer with
      | nil => exact absurd hb h
      | cons a l => rfl
    simp [Client.flush, h1]

theorem batch_buffering_flush_witness :
    Client.flush ⟨[], [mkRequest "m" (.num 1) none], []⟩
      = ⟨[], [], [StructPayload.batch [mkRequest "m" (.num 1) none]]⟩ :=
  (batch_buffering_flush ⟨[], [mkRequest "m" (.num 1) none], []⟩
    (.num 0) 0 "x" .undef).2.2.2.2.2 (by simp)

/-- C9: handler lookup is plain property access, so a method name that the
handler map does not define as an own property but that is an inherited
function-valued property of `Object.prototype` is found by the lookup — the
Method-not-found branch is not taken; the inherited value is treated as the
handler and invoked, and the reply is built from its outcome. -/
theorem handle_inherited_proto_handler (own : List (String × HandlerFn))
    (name : String) (fn : HandlerFn) (params : Value) (i : RpcId) (ctx : Value)
    (hown : own.lookup name = none)
    (hproto : protoFn ⟨own⟩ name = some fn) :
    getProp ⟨own⟩ name = some fn
    ∧ handle (.payload (.single (mkRequest name params (some i))))
        (.direct ⟨own⟩) ctx
      = .ok (some (.single (respOf i (fn params)))) := by
  have hfn : getProp ⟨own⟩ name = some fn := by
    unfold getProp
    rw [hown]
    exact hproto
  have h1 := onMessage_valid ⟨own⟩ (mkRequest name params (some i)) name fn
    rfl rfl hfn
  refine ⟨hfn, ?_⟩
  simp only [handle, handlePayload]
  rw [onMessageE_direct, h1]
  simp [mkRequest]

theorem handle_inherited_proto_handler_witness :
    handle (.payload (.single (mkRequest "toString" .undef (some (.num 1)))))
        (.direct ⟨[]⟩) .undef
      = .ok (some (.single (.result (.num 1) (.str "[object Object]")))) :=
  (handle_inherited_proto_handler [] "toString"
    (fun _ => .ok (.str "[object Object]")) .undef (.num 1) .undef rfl rfl).2

/-- C10: when the transport's `send` throws or rejects during a call, the
promise returned by `callImpl` rejects with that error, but the Pending
Call Table entry registered for the freshly generated id stays in the
table: the returned table is exactly the insertion, and the id still looks
up the entry. -/
theorem callImpl_send_failure_keeps_pending (pending : PendingTable)
    (id : RpcId) (entry : Nat) (method : String) (params : Value)
    (send : RawMessage → Except Thrown Unit) (e : Thrown)
    (hsend : send (mkRequest method params (some id)) = .error e) :
    Client.callImpl pending id entry method params send
        = (insertPending id entry pending, .error e)
    ∧ lookupPending id (insertPending id entry pending) = some entry := by
  constructor
  · simp only [Client.callImpl]
    rw [hsend]
  · simp [insertPending, lookupPending]

theorem callImpl_send_failure_keeps_pending_witness :
    Client.callImpl [] (.str "u") 0 "m" .undef
        (fun _ => .error (.jsError "network down"))
      = (insertPending (.str "u") 0 [], .error (.jsError "network down"))
    ∧ lookupPending (.str "u") (insertPending (.str "u") 0 []) = some 0 :=
  callImpl_send_failure_keeps_pending [] (.str "u") 0 "m" .undef
    (fun _ => .error (.jsError "network down")) (.jsError "network down") rfl
